import Mathlib

/-!
Shallow embedding of the `erz` structured-error library (Go) and proofs
about its specification.

The embedding follows the current snapshot of the package: `error.go`
(the `Er` record, its copy-on-write mutators, `PublicError`), `grpc.go`
(the RPC projection and reconstruction), and the HTTP projection file
(`HTTPStatus`, `ToHTTPResponse`, `FromHTTPStatus`).

Go slices are modelled explicitly as (backing-array id, length, capacity)
triples over a heap of backing arrays, so that the defensive-copy /
no-aliasing invariant of the mutators is a real statement: `append`
writes in place when there is spare capacity and reallocates otherwise,
exactly as in Go (the growth factor of a reallocation is modelled as
doubling; only freshness and contents of the new array are ever used).
-/

namespace Erz

/-- Go `type ErrorCode string`: codes are plain strings. -/
abbrev ErrorCode := String

def CodeUnknown : ErrorCode := "UNKNOWN"
def CodeInvalidInput : ErrorCode := "INVALID_INPUT"
def CodeNotFound : ErrorCode := "NOT_FOUND"
def CodeAlreadyExists : ErrorCode := "ALREADY_EXISTS"
def CodePermissionDenied : ErrorCode := "PERMISSION_DENIED"
def CodeUnauthenticated : ErrorCode := "UNAUTHENTICATED"
def CodeInternal : ErrorCode := "INTERNAL"
def CodeUnavailable : ErrorCode := "UNAVAILABLE"
def CodeTimeout : ErrorCode := "TIMEOUT"
def CodeResourceExhausted : ErrorCode := "RESOURCE_EXHAUSTED"
def CodeValidation : ErrorCode := "VALIDATION"

/-- Go `any`: an opaque payload; only presence (non-nil) and an opaque
token are observable to this library. -/
inductive GoAny where
  | nil : GoAny
  | val : String → GoAny
deriving DecidableEq

/-- A wrapped cause is an opaque Go `error`; the library only ever
observes its `Error()` string. -/
structure GoErr where
  msg : String
deriving DecidableEq

structure ValidationError where
  Field : String
  Message : String
  Value : GoAny
deriving DecidableEq

structure StackFrame where
  Function : String
  File : String
  Line : Int
deriving DecidableEq

/-! ## Go slice / heap model -/

/-- A Go slice header: backing-array id (0 is the nil slice), length,
capacity.  Offsets are always 0 in this library (no re-slicing). -/
structure GoSlice where
  arr : Nat
  len : Nat
  cap : Nat
deriving DecidableEq

def GoSlice.nilS : GoSlice := ⟨0, 0, 0⟩

/-- The store of backing arrays of one element type. `data i` is the
currently initialised contents of array `i`; `next` is the next fresh
array id (always positive; id 0 is the permanently empty nil array). -/
structure Heap (α : Type) where
  data : Nat → List α
  next : Nat

def Heap.empty (α : Type) : Heap α := ⟨fun _ => [], 1⟩

/-- Reading a slice: the first `len` elements of its backing array. -/
def Heap.read (h : Heap α) (s : GoSlice) : List α :=
  (h.data s.arr).take s.len

/-- Go `make([]T, len(xs))` followed by `copy`: a fresh backing array
holding exactly `xs`, with capacity equal to its length. -/
def Heap.alloc (h : Heap α) (xs : List α) : Heap α × GoSlice :=
  (⟨fun i => if i = h.next then xs else h.data i, h.next + 1⟩,
   ⟨h.next, xs.length, xs.length⟩)

/-- Go `append(s, xs...)`: write in place into spare capacity when it
suffices, otherwise reallocate into a fresh array (capacity grows by
doubling, as in the Go runtime; only the freshness matters below). -/
def Heap.append (h : Heap α) (s : GoSlice) (xs : List α) : Heap α × GoSlice :=
  if s.len + xs.length ≤ s.cap then
    (⟨fun i => if i = s.arr then
        (h.data s.arr).take s.len ++ xs ++ (h.data s.arr).drop (s.len + xs.length)
      else h.data i, h.next⟩,
     ⟨s.arr, s.len + xs.length, s.cap⟩)
  else
    (⟨fun i => if i = h.next then h.read s ++ xs else h.data i, h.next + 1⟩,
     ⟨h.next, s.len + xs.length, Nat.max (2 * s.cap) (s.len + xs.length)⟩)

/-- The three backing-array stores used by an `Er`'s sequence fields. -/
structure State where
  wrapped : Heap GoErr
  verrs : Heap ValidationError
  frames : Heap StackFrame

def State.empty : State := ⟨Heap.empty GoErr, Heap.empty ValidationError, Heap.empty StackFrame⟩

/-! ## The Error Value (`Er`, from `error.go`) -/

/-- The `Er` record of `error.go`; sequence fields are slice headers
into the corresponding store of `State`. -/
structure Er where
  ErrCode : ErrorCode
  Message : String
  Detail : String
  PublicMessage : String
  Wrapped : GoSlice
  ValidationErrors : GoSlice
  StackTrace : GoSlice
deriving DecidableEq

/-- The observable content of an `Er` under a state: every accessor of
the public interface reads from this view. -/
structure ErV where
  ErrCode : ErrorCode
  Message : String
  Detail : String
  PublicMessage : String
  Wrapped : List GoErr
  ValidationErrors : List ValidationError
  StackTrace : List StackFrame
deriving DecidableEq

def Er.view (e : Er) (st : State) : ErV :=
  { ErrCode := e.ErrCode
    Message := e.Message
    Detail := e.Detail
    PublicMessage := e.PublicMessage
    Wrapped := st.wrapped.read e.Wrapped
    ValidationErrors := st.verrs.read e.ValidationErrors
    StackTrace := st.frames.read e.StackTrace }

/-- `func New(code ErrorCode, message string) Error` (current
`error.go`: no stack capture). -/
def New (code : ErrorCode) (message : String) : Er :=
  { ErrCode := code, Message := message, Detail := "", PublicMessage := ""
    Wrapped := GoSlice.nilS, ValidationErrors := GoSlice.nilS, StackTrace := GoSlice.nilS }

/-- One `if len(e.F) > 0 { newErr.F = make(...); copy(newErr.F, e.F) }`
block of `Er.copy`: copy a sequence field of positive length into a
fresh exact-size array, leave it untouched otherwise. -/
def copySeq (h : Heap α) (s : GoSlice) : GoSlice × Heap α :=
  if s.len > 0 then
    let a := h.alloc (h.read s)
    (a.2, a.1)
  else (s, h)

/-- `func (e *Er) copy() *Er`: shallow struct copy, then each sequence
field of positive length is copied into a fresh exact-size array.  The
three sequence fields live in disjoint stores, so the three blocks act
on disjoint components of the state. -/
def Er.copy (e : Er) (st : State) : Er × State :=
  let w := copySeq st.wrapped e.Wrapped
  let v := copySeq st.verrs e.ValidationErrors
  let t := copySeq st.frames e.StackTrace
  ({ e with Wrapped := w.1, ValidationErrors := v.1, StackTrace := t.1 },
   ⟨w.2, v.2, t.2⟩)

def Er.WithDetail (e : Er) (detail : String) (st : State) : Er × State :=
  let c := e.copy st
  ({ c.1 with Detail := detail }, c.2)

def Er.WithPublicMessage (e : Er) (msg : String) (st : State) : Er × State :=
  let c := e.copy st
  ({ c.1 with PublicMessage := msg }, c.2)

def Er.WithWrapped (e : Er) (err : GoErr) (st : State) : Er × State :=
  let c := e.copy st
  let a := c.2.wrapped.append c.1.Wrapped [err]
  ({ c.1 with Wrapped := a.2 }, { c.2 with wrapped := a.1 })

def Er.WithValidationError (e : Er) (field message : String) (value : GoAny)
    (st : State) : Er × State :=
  let c := e.copy st
  let a := c.2.verrs.append c.1.ValidationErrors [⟨field, message, value⟩]
  let n : Er := { c.1 with ValidationErrors := a.2 }
  ({ n with ErrCode := if n.ErrCode ≠ CodeValidation then CodeValidation else n.ErrCode },
   { c.2 with verrs := a.1 })

def Er.WithValidationErrors (e : Er) (errs : List ValidationError)
    (st : State) : Er × State :=
  let c := e.copy st
  let a := c.2.verrs.append c.1.ValidationErrors errs
  let n : Er := { c.1 with ValidationErrors := a.2 }
  ({ n with ErrCode := if n.ErrCode ≠ CodeValidation then CodeValidation else n.ErrCode },
   { c.2 with verrs := a.1 })

/-- `WithStackTrace` replaces the trace with a fresh capture; stack
capture itself is an opaque collaborator, so the captured frames are a
parameter and are placed in a fresh backing array. -/
def Er.WithStackTrace (e : Er) (captured : List StackFrame) (st : State) : Er × State :=
  let c := e.copy st
  let a := c.2.frames.alloc captured
  ({ c.1 with StackTrace := a.2 }, { c.2 with frames := a.1 })

/-- The six `With` mutators of the `Error` interface, as one datatype so
a single statement can quantify over them. -/
inductive Mutator where
  | withDetail (d : String)
  | withPublicMessage (m : String)
  | withWrapped (err : GoErr)
  | withValidationError (field message : String) (value : GoAny)
  | withValidationErrors (errs : List ValidationError)
  | withStackTrace (captured : List StackFrame)

def applyMutator : Mutator → Er → State → Er × State
  | .withDetail d, e, st => e.WithDetail d st
  | .withPublicMessage m, e, st => e.WithPublicMessage m st
  | .withWrapped err, e, st => e.WithWrapped err st
  | .withValidationError f m v, e, st => e.WithValidationError f m v st
  | .withValidationErrors errs, e, st => e.WithValidationErrors errs st
  | .withStackTrace cap, e, st => e.WithStackTrace cap st

/-! ## Code registry and read-only accessors (`error.go`) -/

/-- `var defaultPublicMessages = map[ErrorCode]string{...}`, as the
lookup function of that map (`none` = key absent). -/
def defaultPublicMessages (c : ErrorCode) : Option String :=
  if c = CodeUnknown then some "An unexpected error occurred"
  else if c = CodeInvalidInput then some "Invalid input provided"
  else if c = CodeNotFound then some "Resource not found"
  else if c = CodeAlreadyExists then some "Resource already exists"
  else if c = CodePermissionDenied then some "Permission denied"
  else if c = CodeUnauthenticated then some "Authentication required"
  else if c = CodeInternal then some "Internal server error"
  else if c = CodeUnavailable then some "Service temporarily unavailable"
  else if c = CodeTimeout then some "Request timeout"
  else if c = CodeResourceExhausted then some "Rate limit exceeded"
  else if c = CodeValidation then some "Validation failed"
  else none

/-- `func (e *Er) Error() string` -/
def ErV.errStr (e : ErV) : String :=
  if e.Message ≠ "" then e.Message else e.ErrCode

/-- `func (e *Er) PublicError() string`: override, else registry entry
for the code, else the registry entry for `UNKNOWN` (Go map indexing
yields the zero value `""` were that key ever absent). -/
def ErV.PublicError (e : ErV) : String :=
  if e.PublicMessage ≠ "" then e.PublicMessage
  else match defaultPublicMessages e.ErrCode with
    | some m => m
    | none => (defaultPublicMessages CodeUnknown).getD ""

/-! ## HTTP projection (`HTTPStatus`, `ToHTTPResponse`, `FromHTTPStatus`) -/

/-- `func (e *Er) HTTPStatus() int` -/
def ErV.HTTPStatus (e : ErV) : Nat :=
  if e.ErrCode = CodeInvalidInput ∨ e.ErrCode = CodeValidation then 400
  else if e.ErrCode = CodeNotFound then 404
  else if e.ErrCode = CodeAlreadyExists then 409
  else if e.ErrCode = CodePermissionDenied then 403
  else if e.ErrCode = CodeUnauthenticated then 401
  else if e.ErrCode = CodeInternal then 500
  else if e.ErrCode = CodeUnavailable then 503
  else if e.ErrCode = CodeTimeout then 408
  else if e.ErrCode = CodeResourceExhausted then 429
  else 500

structure HTTPErrorResponse where
  Code : String
  Message : String
  Detail : String
  ValidationErrors : List ValidationError
  StackTrace : List StackFrame
  Metadata : List (String × GoAny)
deriving DecidableEq

structure PaginationMeta where
  Page : Int
  PerPage : Int
  Total : Int
  TotalPages : Int
  HasNext : Bool
  HasPrev : Bool
deriving DecidableEq

structure HTTPResponseMeta where
  Version : String
  Pagination : Option PaginationMeta
  Headers : List (String × String)
deriving DecidableEq

/-- The wire envelope; `Timestamp` is a time value with 0 as Go's zero
time. The serializer is an external collaborator and is not part of the
envelope. -/
structure HTTPResponse where
  Success : Bool
  Error : Option HTTPErrorResponse
  Data : Option GoAny
  Meta : Option HTTPResponseMeta
  Timestamp : Nat
  RequestID : String
  TraceID : String
deriving DecidableEq

structure HTTPOptions where
  IncludeStackTrace : Bool
  IncludeTimestamp : Bool
  RequestID : String
  TraceID : String
  Version : String
  Metadata : List (String × GoAny)
deriving DecidableEq

def DefaultHTTPOptions : HTTPOptions :=
  { IncludeStackTrace := false, IncludeTimestamp := true
    RequestID := "", TraceID := "", Version := "", Metadata := [] }

/-- `func (e *Er) ToHTTPResponse(opts *HTTPOptions) *HTTPResponse`.
A `nil` options pointer is `none`; `now` is the clock reading used when
a timestamp is stamped. -/
def ErV.ToHTTPResponse (e : ErV) (optsP : Option HTTPOptions) (now : Nat) : HTTPResponse :=
  let opts := optsP.getD DefaultHTTPOptions
  let errorResp : HTTPErrorResponse :=
    { Code := e.ErrCode
      Message := e.PublicError
      Detail := e.Detail
      ValidationErrors := e.ValidationErrors
      StackTrace := if opts.IncludeStackTrace ∧ e.StackTrace.length > 0 then e.StackTrace else []
      Metadata := opts.Metadata }
  { Success := false
    Error := some errorResp
    Data := none
    Meta := if opts.Version ≠ "" then
        some { Version := opts.Version, Pagination := none, Headers := [] }
      else none
    Timestamp := if opts.IncludeTimestamp then now else 0
    RequestID := if opts.RequestID ≠ "" then opts.RequestID else ""
    TraceID := if opts.TraceID ≠ "" then opts.TraceID else "" }

/-- `func FromHTTPStatus(status int, message string) Error` (current
HTTP projection file: explicit 500 case, default `UNKNOWN`). -/
def FromHTTPStatus (status : Nat) (message : String) : Er :=
  let code : ErrorCode :=
    if status = 400 then CodeInvalidInput
    else if status = 404 then CodeNotFound
    else if status = 409 then CodeAlreadyExists
    else if status = 403 then CodePermissionDenied
    else if status = 401 then CodeUnauthenticated
    else if status = 503 then CodeUnavailable
    else if status = 408 then CodeTimeout
    else if status = 429 then CodeResourceExhausted
    else if status = 500 then CodeInternal
    else CodeUnknown
  New code message

/-! ## RPC projection (`grpc.go`) -/

inductive GRPCCode where
  | OK | InvalidArgument | NotFound | AlreadyExists | PermissionDenied
  | Unauthenticated | Internal | Unavailable | DeadlineExceeded
  | ResourceExhausted | Unknown
deriving DecidableEq

structure FieldViolation where
  Field : String
  Description : String
deriving DecidableEq

/-- The four structured detail messages the library attaches
(`errdetails.BadRequest`, `ErrorInfo`, `DebugInfo`, `Help`); a `Help`
link is a (description, url) pair. -/
inductive GRPCDetail where
  | badRequest (fieldViolations : List FieldViolation)
  | errorInfo (reason domain : String) (metadata : List (String × String))
  | debugInfo (stackEntries : List String) (detail : String)
  | help (links : List (String × String))
deriving DecidableEq

/-- `*status.Status`: code, message and attached details. -/
structure Status where
  code : GRPCCode
  message : String
  details : List GRPCDetail
deriving DecidableEq

/-- `func (e *Er) GRPCStatus() *status.Status`. `st.WithDetails` is
modelled as always succeeding (its failure path returns the same code
and message without details and cannot occur for these messages). -/
def ErV.GRPCStatus (e : ErV) : Status :=
  let code : GRPCCode :=
    if e.ErrCode = CodeInvalidInput ∨ e.ErrCode = CodeValidation then .InvalidArgument
    else if e.ErrCode = CodeNotFound then .NotFound
    else if e.ErrCode = CodeAlreadyExists then .AlreadyExists
    else if e.ErrCode = CodePermissionDenied then .PermissionDenied
    else if e.ErrCode = CodeUnauthenticated then .Unauthenticated
    else if e.ErrCode = CodeInternal then .Internal
    else if e.ErrCode = CodeUnavailable then .Unavailable
    else if e.ErrCode = CodeTimeout then .DeadlineExceeded
    else if e.ErrCode = CodeResourceExhausted then .ResourceExhausted
    else .Unknown
  let msg := e.PublicError
  let details : List GRPCDetail :=
    (if e.ValidationErrors.length > 0 then
      [GRPCDetail.badRequest (e.ValidationErrors.map fun ve => ⟨ve.Field, ve.Message⟩)]
    else [])
    ++ (if e.Detail ≠ "" ∨ e.Message ≠ "" then
      [GRPCDetail.errorInfo e.ErrCode "???" [("detail", e.Detail), ("message", e.Message)]]
    else [])
    ++ (if e.StackTrace.length > 0 then
      [GRPCDetail.debugInfo
        (e.StackTrace.map fun f => f.File ++ ":" ++ toString f.Line ++ " " ++ f.Function)
        "Go stack trace"]
    else [])
    ++ (if e.Wrapped.length > 0 then
      [GRPCDetail.help ((e.Wrapped.enum).map fun p => ("Wrapped error " ++ toString (p.1 + 1), p.2.msg))]
    else [])
  ⟨code, msg, details⟩

/-- `func parseInt(s string) int`: accumulate leading decimal digits,
stop at the first non-digit; the accumulator is a 64-bit Go `int` and
wraps accordingly. -/
def parseIntAux : List Char → Nat → Nat
  | [], acc => acc
  | c :: cs, acc =>
    if '0' ≤ c ∧ c ≤ '9' then parseIntAux cs ((acc * 10 + (c.toNat - '0'.toNat)) % 2 ^ 64)
    else acc

def parseInt (s : String) : Int :=
  let n := parseIntAux s.data 0
  if n < 2 ^ 63 then (n : Int) else (n : Int) - 2 ^ 64

/-- Go `strings.Split` with a one-character separator. -/
def splitChar (sep : Char) : List Char → List (List Char)
  | [] => [[]]
  | c :: cs =>
    if c = sep then [] :: splitChar sep cs
    else match splitChar sep cs with
      | [] => [[c]]
      | g :: gs => (c :: g) :: gs

/-- The body of the `DebugInfo` decoding loop of
`FromGRPCStatusWithDetails`: split the entry on spaces, require a
second part, split the first part on colons, require a second part,
and build the frame; otherwise contribute nothing. -/
def parseStackEntry (entry : String) : List StackFrame :=
  let parts := splitChar ' ' entry.data
  if parts.length ≥ 2 then
    let fileLineParts := splitChar ':' (parts.headD [])
    if fileLineParts.length ≥ 2 then
      [{ Function := String.mk (parts.getD 1 [])
         File := String.mk (fileLineParts.headD [])
         Line := parseInt (String.mk (fileLineParts.getD 1 [])) }]
    else []
  else []

/-- One step of the detail-decoding loop of `FromGRPCStatusWithDetails`
(the `switch d := detail.(type)` body). -/
def decodeDetail (err : ErV) (d : GRPCDetail) : ErV :=
  match d with
  | .badRequest fvs =>
    { err with ValidationErrors :=
        err.ValidationErrors ++ fvs.map fun fv => ⟨fv.Field, fv.Description, GoAny.nil⟩ }
  | .errorInfo _ _ md =>
    let e1 := match md.lookup "detail" with
      | some d => { err with Detail := d }
      | none => err
    match md.lookup "message" with
      | some m => if e1.Message = "" then { e1 with Message := m } else e1
      | none => e1
  | .debugInfo entries _ =>
    { err with StackTrace := err.StackTrace ++ entries.flatMap parseStackEntry }
  | .help links =>
    { err with Wrapped := err.Wrapped ++ links.map fun l => ⟨l.2⟩ }

/-- `func FromGRPCStatusWithDetails(st *status.Status) Error`: inverse
code table (note `InvalidArgument` decodes to `VALIDATION` here), then
the detail-decoding loop. The result is a freshly built value, given by
its observable content. -/
def FromGRPCStatusWithDetails (st : Status) : ErV :=
  let code : ErrorCode :=
    match st.code with
    | .InvalidArgument => CodeValidation
    | .NotFound => CodeNotFound
    | .AlreadyExists => CodeAlreadyExists
    | .PermissionDenied => CodePermissionDenied
    | .Unauthenticated => CodeUnauthenticated
    | .Internal => CodeInternal
    | .Unavailable => CodeUnavailable
    | .DeadlineExceeded => CodeTimeout
    | .ResourceExhausted => CodeResourceExhausted
    | _ => CodeUnknown
  st.details.foldl decodeDetail
    { ErrCode := code, Message := st.message, Detail := "", PublicMessage := ""
      Wrapped := [], ValidationErrors := [], StackTrace := [] }

/-! ## Spec-side definitions (for refinement claims) -/

/-- Modelled from the spec: the fixed inverse table of `fromStatus`
exactly as the specification lists it (400→INVALID_INPUT, 404→NOT_FOUND,
409→ALREADY_EXISTS, 403→PERMISSION_DENIED, 401→UNAUTHENTICATED,
503→UNAVAILABLE, 408→TIMEOUT, 429→RESOURCE_EXHAUSTED, 500→INTERNAL,
any other status→UNKNOWN). -/
def specHTTPInverse (status : Nat) : ErrorCode :=
  if status = 400 then CodeInvalidInput
  else if status = 404 then CodeNotFound
  else if status = 409 then CodeAlreadyExists
  else if status = 403 then CodePermissionDenied
  else if status = 401 then CodeUnauthenticated
  else if status = 503 then CodeUnavailable
  else if status = 408 then CodeTimeout
  else if status = 429 then CodeResourceExhausted
  else if status = 500 then CodeInternal
  else CodeUnknown

/-- The codes the HTTP forward table lists explicitly. -/
def httpTableCodes : List ErrorCode :=
  [CodeInvalidInput, CodeValidation, CodeNotFound, CodeAlreadyExists,
   CodePermissionDenied, CodeUnauthenticated, CodeInternal, CodeUnavailable,
   CodeTimeout, CodeResourceExhausted]

/-- No mutable sharing between two slice headers: different backing
arrays, or the second is empty (holds no elements at all). -/
def GoSlice.noShare (s' s : GoSlice) : Prop := s'.arr ≠ s.arr ∨ s.len = 0

/-- An `Er`'s slice headers point below the allocation frontier of the
state (true of every value the library ever builds). -/
def Er.wfIn (e : Er) (st : State) : Prop :=
  e.Wrapped.arr < st.wrapped.next ∧ e.ValidationErrors.arr < st.verrs.next ∧
  e.StackTrace.arr < st.frames.next

/-- The validation failures one decoded detail block contributes. -/
def veOf : GRPCDetail → List ValidationError
  | .badRequest fvs => fvs.map fun fv => ⟨fv.Field, fv.Description, GoAny.nil⟩
  | _ => []

/-! ## Heap and copy lemmas -/

theorem Heap.read_len_zero (h : Heap α) (s : GoSlice) (hs : s.len = 0) : h.read s = [] := by
  simp [Heap.read, hs]

theorem Heap.read_alloc_self (h : Heap α) (xs : List α) :
    (h.alloc xs).1.read (h.alloc xs).2 = xs := by
  simp [Heap.alloc, Heap.read]

theorem Heap.read_alloc_other (h : Heap α) (xs : List α) (s : GoSlice) (hs : s.arr ≠ h.next) :
    (h.alloc xs).1.read s = h.read s := by
  simp [Heap.alloc, Heap.read, hs]

theorem Heap.append_read_self (h : Heap α) (s : GoSlice) (xs : List α)
    (hb : s.len ≤ (h.data s.arr).length) :
    (h.append s xs).1.read (h.append s xs).2 = h.read s ++ xs := by
  have hA : ((h.data s.arr).take s.len).length = s.len := by
    simp [Nat.min_eq_left hb]
  unfold Heap.append
  split
  · simp only [Heap.read, if_pos rfl, if_true]
    rw [@List.take_left' _ ((h.data s.arr).take s.len ++ xs)
      ((h.data s.arr).drop (s.len + xs.length)) _ (by simp [hA])]
  · simp only [Heap.read, if_pos rfl, if_true]
    have hr : (h.read s).length = s.len := by
      simp [Heap.read, Nat.min_eq_left hb]
    exact List.take_of_length_le (by simp [hr])

theorem Heap.append_read_pres (h : Heap α) (s : GoSlice) (xs : List α) (t : GoSlice)
    (hnext : t.arr ≠ h.next) (hdis : t.arr ≠ s.arr ∨ t.len = 0) :
    (h.append s xs).1.read t = h.read t := by
  rcases hdis with hd | hl
  · unfold Heap.append; split <;> simp [Heap.read, hd, hnext]
  · rw [Heap.read_len_zero _ _ hl, Heap.read_len_zero _ _ hl]

theorem Heap.append_arr (h : Heap α) (s : GoSlice) (xs : List α) :
    (h.append s xs).2.arr = s.arr ∨ (h.append s xs).2.arr = h.next := by
  unfold Heap.append; split <;> simp

theorem Heap.append_next_ge (h : Heap α) (s : GoSlice) (xs : List α) :
    h.next ≤ (h.append s xs).1.next := by
  unfold Heap.append; split <;> simp

theorem Heap.alloc_next (h : Heap α) (xs : List α) : (h.alloc xs).1.next = h.next + 1 := rfl

theorem Heap.alloc_arr (h : Heap α) (xs : List α) : (h.alloc xs).2.arr = h.next := rfl

theorem copySeq_read_self (h : Heap α) (s : GoSlice) :
    (copySeq h s).2.read (copySeq h s).1 = h.read s := by
  unfold copySeq; split
  · exact Heap.read_alloc_self h (h.read s)
  · rfl

theorem copySeq_read_pres (h : Heap α) (s t : GoSlice) (ht : t.arr < h.next) :
    (copySeq h s).2.read t = h.read t := by
  unfold copySeq; split
  · exact Heap.read_alloc_other h (h.read s) t (Nat.ne_of_lt ht)
  · rfl

theorem copySeq_next_ge (h : Heap α) (s : GoSlice) : h.next ≤ (copySeq h s).2.next := by
  unfold copySeq; split <;> simp [Heap.alloc]

theorem copySeq_noShare (h : Heap α) (s : GoSlice) (hw : s.arr < h.next) :
    GoSlice.noShare (copySeq h s).1 s := by
  unfold copySeq GoSlice.noShare; split
  · exact Or.inl (by simp [Heap.alloc]; omega)
  · exact Or.inr (by omega)

theorem copySeq_backed (h : Heap α) (s : GoSlice) :
    (copySeq h s).1.len ≤ ((copySeq h s).2.data (copySeq h s).1.arr).length := by
  unfold copySeq; split
  · simp [Heap.alloc]
  · have : s.len = 0 := by omega
    simp [this]

/-- Reading any old slice after a copy-then-append on the same store is
unchanged: the backing arrays below the old frontier are untouched
except, possibly, cells past the end of an empty old slice. -/
theorem copyAppend_read_pres (h : Heap α) (s : GoSlice) (xs : List α) (hw : s.arr < h.next) :
    ((copySeq h s).2.append (copySeq h s).1 xs).1.read s = h.read s := by
  have h1 : s.arr ≠ (copySeq h s).2.next :=
    Nat.ne_of_lt (lt_of_lt_of_le hw (copySeq_next_ge h s))
  have h2 : s.arr ≠ (copySeq h s).1.arr ∨ s.len = 0 := by
    rcases copySeq_noShare h s hw with hne | hz
    · exact Or.inl (Ne.symm hne)
    · exact Or.inr hz
  rw [Heap.append_read_pres _ _ _ _ h1 h2, copySeq_read_pres _ _ _ hw]

/-- The slice a copy-then-append returns never shares a non-empty
backing array with the original slice. -/
theorem copyAppend_noShare (h : Heap α) (s : GoSlice) (xs : List α) (hw : s.arr < h.next) :
    GoSlice.noShare ((copySeq h s).2.append (copySeq h s).1 xs).2 s := by
  rcases Heap.append_arr (copySeq h s).2 (copySeq h s).1 xs with ha | ha
  · rcases copySeq_noShare h s hw with hne | hz
    · exact Or.inl (by rw [ha]; exact hne)
    · exact Or.inr hz
  · refine Or.inl ?_
    rw [ha]
    exact Nat.ne_of_gt (lt_of_lt_of_le hw (copySeq_next_ge h s))

/-- Contents of the slice a copy-then-append returns: the original
contents followed by the appended elements. -/
theorem copyAppend_read_self (h : Heap α) (s : GoSlice) (xs : List α) :
    ((copySeq h s).2.append (copySeq h s).1 xs).1.read
      ((copySeq h s).2.append (copySeq h s).1 xs).2 = h.read s ++ xs := by
  rw [Heap.append_read_self _ _ _ (copySeq_backed h s), copySeq_read_self]

/-- Reading any old slice after a copy-then-alloc on the same store is
unchanged. -/
theorem copyAlloc_read_pres (h : Heap α) (s : GoSlice) (xs : List α) (t : GoSlice)
    (ht : t.arr < h.next) :
    ((copySeq h s).2.alloc xs).1.read t = h.read t := by
  have h1 : t.arr ≠ (copySeq h s).2.next :=
    Nat.ne_of_lt (lt_of_lt_of_le ht (copySeq_next_ge h s))
  rw [Heap.read_alloc_other _ _ _ h1, copySeq_read_pres _ _ _ ht]

/-- The slice a copy-then-alloc returns is fresh. -/
theorem copyAlloc_noShare (h : Heap α) (s : GoSlice) (xs : List α) (hw : s.arr < h.next) :
    GoSlice.noShare ((copySeq h s).2.alloc xs).2 s :=
  Or.inl (by
    rw [Heap.alloc_arr]
    exact Nat.ne_of_gt (lt_of_lt_of_le hw (copySeq_next_ge h s)))

/-! ## Claim theorems -/

/-- C1: for every Error Value `v` and every mutator among `WithDetail`,
`WithPublicMessage`, `WithWrapped`, `WithValidationError`,
`WithValidationErrors` and `WithStackTrace`, applying the mutator
leaves every accessor of `v` unchanged (its full observable view is the
same before and after), and the returned value shares no non-empty
backing array with `v` in any sequence field (each sequence field is
defensively copied before any append). -/
theorem c1_mutators_immutable_no_aliasing (m : Mutator) (e : Er) (st : State)
    (hw : e.wfIn st) :
    e.view (applyMutator m e st).2 = e.view st
    ∧ GoSlice.noShare (applyMutator m e st).1.Wrapped e.Wrapped
    ∧ GoSlice.noShare (applyMutator m e st).1.ValidationErrors e.ValidationErrors
    ∧ GoSlice.noShare (applyMutator m e st).1.StackTrace e.StackTrace := by
  obtain ⟨hw1, hw2, hw3⟩ := hw
  cases m with
  | withDetail d =>
    refine ⟨?_, copySeq_noShare _ _ hw1, copySeq_noShare _ _ hw2, copySeq_noShare _ _ hw3⟩
    simp [applyMutator, Er.WithDetail, Er.copy, Er.view,
      copySeq_read_pres _ _ _ hw1, copySeq_read_pres _ _ _ hw2, copySeq_read_pres _ _ _ hw3]
  | withPublicMessage msg =>
    refine ⟨?_, copySeq_noShare _ _ hw1, copySeq_noShare _ _ hw2, copySeq_noShare _ _ hw3⟩
    simp [applyMutator, Er.WithPublicMessage, Er.copy, Er.view,
      copySeq_read_pres _ _ _ hw1, copySeq_read_pres _ _ _ hw2, copySeq_read_pres _ _ _ hw3]
  | withWrapped err =>
    refine ⟨?_, copyAppend_noShare _ _ _ hw1, copySeq_noShare _ _ hw2, copySeq_noShare _ _ hw3⟩
    simp [applyMutator, Er.WithWrapped, Er.copy, Er.view,
      copyAppend_read_pres _ _ _ hw1, copySeq_read_pres _ _ _ hw2, copySeq_read_pres _ _ _ hw3]
  | withValidationError f msg v =>
    refine ⟨?_, copySeq_noShare _ _ hw1, copyAppend_noShare _ _ _ hw2, copySeq_noShare _ _ hw3⟩
    simp [applyMutator, Er.WithValidationError, Er.copy, Er.view,
      copySeq_read_pres _ _ _ hw1, copyAppend_read_pres _ _ _ hw2, copySeq_read_pres _ _ _ hw3]
  | withValidationErrors errs =>
    refine ⟨?_, copySeq_noShare _ _ hw1, copyAppend_noShare _ _ _ hw2, copySeq_noShare _ _ hw3⟩
    simp [applyMutator, Er.WithValidationErrors, Er.copy, Er.view,
      copySeq_read_pres _ _ _ hw1, copyAppend_read_pres _ _ _ hw2, copySeq_read_pres _ _ _ hw3]
  | withStackTrace captured =>
    refine ⟨?_, copySeq_noShare _ _ hw1, copySeq_noShare _ _ hw2, copyAlloc_noShare _ _ _ hw3⟩
    simp [applyMutator, Er.WithStackTrace, Er.copy, Er.view,
      copySeq_read_pres _ _ _ hw1, copySeq_read_pres _ _ _ hw2, copyAlloc_read_pres _ _ _ _ hw3]

/-- Witness for C1 at a concrete value, state and mutator. -/
theorem c1_witness :
    (New CodeNotFound "user not found").wfIn State.empty
    ∧ ((New CodeNotFound "user not found").view
        (applyMutator (Mutator.withDetail "db miss") (New CodeNotFound "user not found") State.empty).2
      = (New CodeNotFound "user not found").view State.empty
    ∧ GoSlice.noShare
        (applyMutator (Mutator.withDetail "db miss") (New CodeNotFound "user not found") State.empty).1.Wrapped
        (New CodeNotFound "user not found").Wrapped
    ∧ GoSlice.noShare
        (applyMutator (Mutator.withDetail "db miss") (New CodeNotFound "user not found") State.empty).1.ValidationErrors
        (New CodeNotFound "user not found").ValidationErrors
    ∧ GoSlice.noShare
        (applyMutator (Mutator.withDetail "db miss") (New CodeNotFound "user not found") State.empty).1.StackTrace
        (New CodeNotFound "user not found").StackTrace) :=
  ⟨⟨Nat.zero_lt_one, Nat.zero_lt_one, Nat.zero_lt_one⟩,
   c1_mutators_immutable_no_aliasing (Mutator.withDetail "db miss")
     (New CodeNotFound "user not found") State.empty
     ⟨Nat.zero_lt_one, Nat.zero_lt_one, Nat.zero_lt_one⟩⟩

/-- What `WithValidationErrors` does, for any failure list: the code is
forced to `VALIDATION` and the failures are the old ones followed by
the argument. -/
theorem withValidationErrors_view (e : Er) (st : State) (L : List ValidationError) :
    ((e.WithValidationErrors L st).1.view (e.WithValidationErrors L st).2).ErrCode
      = CodeValidation
    ∧ ((e.WithValidationErrors L st).1.view (e.WithValidationErrors L st).2).ValidationErrors
      = (e.view st).ValidationErrors ++ L := by
  constructor
  · by_cases hc : e.ErrCode = CodeValidation <;>
      simp [Er.WithValidationErrors, Er.copy, Er.view, hc]
  · simp [Er.WithValidationErrors, Er.copy, Er.view, copyAppend_read_self]

/-- C2: for every Error Value of any prior code and every non-empty
list `L` of validation failures, `WithValidationErrors L` returns a
value whose code is `VALIDATION` and whose failures are the old ones
followed by `L`. -/
theorem c2_withValidationErrors_forces_validation (e : Er) (st : State)
    (L : List ValidationError) (hL : L ≠ []) :
    ((e.WithValidationErrors L st).1.view (e.WithValidationErrors L st).2).ErrCode
      = CodeValidation
    ∧ ((e.WithValidationErrors L st).1.view (e.WithValidationErrors L st).2).ValidationErrors
      = (e.view st).ValidationErrors ++ L :=
  withValidationErrors_view e st L

/-- Witness for C2 at a concrete value and failure list. -/
theorem c2_witness :
    ([(⟨"email", "required", GoAny.nil⟩ : ValidationError)] ≠ [])
    ∧ ((((New CodeNotFound "m").WithValidationErrors [⟨"email", "required", GoAny.nil⟩]
          State.empty).1.view
        ((New CodeNotFound "m").WithValidationErrors [⟨"email", "required", GoAny.nil⟩]
          State.empty).2).ErrCode = CodeValidation
    ∧ ((((New CodeNotFound "m").WithValidationErrors [⟨"email", "required", GoAny.nil⟩]
          State.empty).1.view
        ((New CodeNotFound "m").WithValidationErrors [⟨"email", "required", GoAny.nil⟩]
          State.empty).2).ValidationErrors
      = ((New CodeNotFound "m").view State.empty).ValidationErrors
          ++ [⟨"email", "required", GoAny.nil⟩])) :=
  ⟨by simp,
   c2_withValidationErrors_forces_validation (New CodeNotFound "m") State.empty
     [⟨"email", "required", GoAny.nil⟩] (by simp)⟩

/-- C10: `WithValidationErrors` forces the code to `VALIDATION` even
for an empty failure list, leaving the failure list as it was, so a
value with code `VALIDATION` and zero failures is reachable through
the public interface. -/
theorem c10_empty_validation_list_still_forces_code :
    (∀ (e : Er) (st : State),
      ((e.WithValidationErrors [] st).1.view (e.WithValidationErrors [] st).2).ErrCode
        = CodeValidation
      ∧ ((e.WithValidationErrors [] st).1.view (e.WithValidationErrors [] st).2).ValidationErrors
        = (e.view st).ValidationErrors)
    ∧ (((New CodeUnknown "boom").WithValidationErrors [] State.empty).1.view
        ((New CodeUnknown "boom").WithValidationErrors [] State.empty).2).ErrCode
      = CodeValidation
    ∧ (((New CodeUnknown "boom").WithValidationErrors [] State.empty).1.view
        ((New CodeUnknown "boom").WithValidationErrors [] State.empty).2).ValidationErrors
      = [] := by
  have hgen : ∀ (e : Er) (st : State),
      ((e.WithValidationErrors [] st).1.view (e.WithValidationErrors [] st).2).ErrCode
        = CodeValidation
      ∧ ((e.WithValidationErrors [] st).1.view (e.WithValidationErrors [] st).2).ValidationErrors
        = (e.view st).ValidationErrors := by
    intro e st
    have h := withValidationErrors_view e st []
    simpa using h
  refine ⟨hgen, (hgen _ _).1, ?_⟩
  rw [(hgen _ _).2]
  rfl

set_option maxHeartbeats 1000000 in
/-- Every message in the registry is non-empty. -/
theorem defaultPublicMessages_ne_empty (c : ErrorCode) (msg : String)
    (h : defaultPublicMessages c = some msg) : msg ≠ "" := by
  unfold defaultPublicMessages at h
  split_ifs at h <;> injection h with h <;> subst h <;> decide

/-- C6: `PublicError` is total and never empty: it returns the explicit
public-message override when one is set, otherwise the registry default
for the value's code, otherwise the default message for `UNKNOWN`. -/
theorem c6_publicError_total (e : ErV) :
    e.PublicError ≠ ""
    ∧ (e.PublicMessage ≠ "" → e.PublicError = e.PublicMessage)
    ∧ (e.PublicMessage = "" →
        ∀ msg, defaultPublicMessages e.ErrCode = some msg → e.PublicError = msg)
    ∧ (e.PublicMessage = "" → defaultPublicMessages e.ErrCode = none →
        e.PublicError = "An unexpected error occurred") := by
  refine ⟨?_, fun h => by simp [ErV.PublicError, h], fun hp msg hd => ?_, fun hp hd => ?_⟩
  · by_cases hp : e.PublicMessage = ""
    · rcases hd : defaultPublicMessages e.ErrCode with _ | m
      · simp only [ErV.PublicError, hp, ne_eq, not_true_eq_false, if_false, hd]
        decide
      · have hm := defaultPublicMessages_ne_empty _ _ hd
        simp [ErV.PublicError, hp, hd, hm]
    · simp [ErV.PublicError, hp]
  · simp [ErV.PublicError, hp, hd]
  · simp only [ErV.PublicError, hp, ne_eq, not_true_eq_false, if_false, hd]
    decide

/-- Witness for C6: the three branches at concrete values. -/
theorem c6_witness :
    ((⟨CodeNotFound, "m", "", "please retry", [], [], []⟩ : ErV).PublicError = "please retry")
    ∧ ((⟨CodeNotFound, "m", "", "", [], [], []⟩ : ErV).PublicError = "Resource not found")
    ∧ ((⟨"SOME_UNREGISTERED_CODE", "m", "", "", [], [], []⟩ : ErV).PublicError
        = "An unexpected error occurred")
    ∧ (⟨"SOME_UNREGISTERED_CODE", "m", "", "", [], [], []⟩ : ErV).PublicError ≠ "" :=
  ⟨(c6_publicError_total ⟨CodeNotFound, "m", "", "please retry", [], [], []⟩).2.1 (by decide),
   (c6_publicError_total ⟨CodeNotFound, "m", "", "", [], [], []⟩).2.2.1 rfl
     "Resource not found" (by decide),
   (c6_publicError_total ⟨"SOME_UNREGISTERED_CODE", "m", "", "", [], [], []⟩).2.2.2 rfl
     (by decide),
   (c6_publicError_total ⟨"SOME_UNREGISTERED_CODE", "m", "", "", [], [], []⟩).1⟩

/-- C7: the HTTP envelope's error-block message field is always the
value's public message (never the internal message), and the stack
frames are omitted whenever the stack-trace option is not set. -/
theorem c7_http_envelope_message_and_stack (e : ErV) (optsP : Option HTTPOptions) (now : Nat) :
    ((e.ToHTTPResponse optsP now).Error.map fun r => r.Message) = some e.PublicError
    ∧ ((optsP.getD DefaultHTTPOptions).IncludeStackTrace = false →
        ((e.ToHTTPResponse optsP now).Error.map fun r => r.StackTrace) = some []) := by
  constructor
  · simp [ErV.ToHTTPResponse]
  · intro h
    simp [ErV.ToHTTPResponse, h]

/-- Witness for C7 at a concrete value with the default (nil) options. -/
theorem c7_witness :
    (((⟨CodeInternal, "boom", "d", "", [], [], [⟨"f", "x.go", 3⟩]⟩ : ErV).ToHTTPResponse
        none 7).Error.map fun r => r.Message)
      = some (⟨CodeInternal, "boom", "d", "", [], [], [⟨"f", "x.go", 3⟩]⟩ : ErV).PublicError
    ∧ ((Option.getD none DefaultHTTPOptions).IncludeStackTrace = false
    ∧ (((⟨CodeInternal, "boom", "d", "", [], [], [⟨"f", "x.go", 3⟩]⟩ : ErV).ToHTTPResponse
        none 7).Error.map fun r => r.StackTrace) = some []) :=
  ⟨(c7_http_envelope_message_and_stack ⟨CodeInternal, "boom", "d", "", [], [], [⟨"f", "x.go", 3⟩]⟩
      none 7).1,
   rfl,
   (c7_http_envelope_message_and_stack ⟨CodeInternal, "boom", "d", "", [], [], [⟨"f", "x.go", 3⟩]⟩
      none 7).2 rfl⟩

/-- C8: `FromHTTPStatus` maps the numeric status by the fixed inverse
table of the spec and returns a fresh value carrying the message, with
no validation failures, no stack trace and no wrapped causes. -/
theorem c8_fromHTTPStatus_fresh (status : Nat) (message : String) (st : State) :
    (FromHTTPStatus status message).ErrCode = specHTTPInverse status
    ∧ (FromHTTPStatus status message).Message = message
    ∧ ((FromHTTPStatus status message).view st).ValidationErrors = []
    ∧ ((FromHTTPStatus status message).view st).StackTrace = []
    ∧ ((FromHTTPStatus status message).view st).Wrapped = [] :=
  ⟨rfl, rfl, rfl, rfl, rfl⟩

/-- C4: for every code in the HTTP forward table, a value with that
code round-trips through `HTTPStatus` and `FromHTTPStatus` back to the
same code, except that `VALIDATION` (which shares status 400 with
`INVALID_INPUT`) comes back as `INVALID_INPUT`. -/
theorem c4_http_code_roundtrip (v : ErV) (c : ErrorCode) (msg : String)
    (hc : c ∈ httpTableCodes) (hv : v.ErrCode = c) :
    (FromHTTPStatus v.HTTPStatus msg).ErrCode
      = if c = CodeValidation then CodeInvalidInput else c := by
  simp only [httpTableCodes, List.mem_cons, List.not_mem_nil, or_false] at hc
  rcases hc with rfl | rfl | rfl | rfl | rfl | rfl | rfl | rfl | rfl | rfl <;>
    simp [ErV.HTTPStatus, hv, FromHTTPStatus, New, CodeInvalidInput, CodeValidation,
      CodeNotFound, CodeAlreadyExists, CodePermissionDenied, CodeUnauthenticated,
      CodeInternal, CodeUnavailable, CodeTimeout, CodeResourceExhausted, CodeUnknown]

/-- Witness for C4: the `VALIDATION` collapse at a concrete value. -/
theorem c4_witness :
    CodeValidation ∈ httpTableCodes
    ∧ (FromHTTPStatus (ErV.HTTPStatus ⟨CodeValidation, "m", "", "", [], [], []⟩) "w").ErrCode
      = if CodeValidation = CodeValidation then CodeInvalidInput else CodeValidation :=
  ⟨by decide,
   c4_http_code_roundtrip ⟨CodeValidation, "m", "", "", [], [], []⟩ CodeValidation "w"
     (by decide) rfl⟩

/-- `PublicError` depends only on the code and the override. -/
theorem publicError_congr (e1 e2 : ErV) (hc : e1.ErrCode = e2.ErrCode)
    (hp : e1.PublicMessage = e2.PublicMessage) : e1.PublicError = e2.PublicError := by
  simp [ErV.PublicError, hp, hc]

/-- C3 counterexample: two values differing only in the free-form
detail have distinct default HTTP envelopes (the detail field is always
included), and two values differing only in the internal message have
distinct RPC statuses (the `ErrorInfo` detail block always carries the
internal message). -/
theorem c3_counterexample :
    ErV.ToHTTPResponse ⟨CodeInternal, "m", "detail one", "", [], [], []⟩ none 0
      ≠ ErV.ToHTTPResponse ⟨CodeInternal, "m", "detail two", "", [], [], []⟩ none 0
    ∧ ErV.GRPCStatus ⟨CodeInternal, "message one", "", "", [], [], []⟩
      ≠ ErV.GRPCStatus ⟨CodeInternal, "message two", "", "", [], [], []⟩ :=
  ⟨by decide, by decide⟩

/-- C3 as amended: by default the HTTP envelope conceals the internal
message, stack frames and wrapped causes — any two values agreeing on
code, public-message override, detail and validation failures have
identical default HTTP envelopes — and the RPC status line (code and
message) depends only on the code and public message; but the detail
and validation failures do reach the default HTTP envelope, and the
RPC detail blocks carry internal message, detail and stack trace. -/
theorem c3_amended_default_concealment (e1 e2 : ErV)
    (hc : e1.ErrCode = e2.ErrCode) (hp : e1.PublicMessage = e2.PublicMessage)
    (hd : e1.Detail = e2.Detail) (hv : e1.ValidationErrors = e2.ValidationErrors) :
    (∀ now, e1.ToHTTPResponse none now = e2.ToHTTPResponse none now)
    ∧ e1.GRPCStatus.code = e2.GRPCStatus.code
    ∧ e1.GRPCStatus.message = e2.GRPCStatus.message := by
  refine ⟨fun now => ?_, ?_, ?_⟩
  · simp [ErV.ToHTTPResponse, DefaultHTTPOptions, hd, hv, hc,
      publicError_congr e1 e2 hc hp]
  · simp [ErV.GRPCStatus, hc]
  · simp [ErV.GRPCStatus, publicError_congr e1 e2 hc hp]

/-- Witness for the amended C3 at two concrete values differing in
internal message, stack trace and wrapped causes. -/
theorem c3_witness :
    ErV.ToHTTPResponse ⟨CodeInternal, "ma", "d", "", [], [], [⟨"f", "x.go", 3⟩]⟩ none 5
      = ErV.ToHTTPResponse ⟨CodeInternal, "mb", "d", "", [⟨"c"⟩], [], []⟩ none 5
    ∧ (ErV.GRPCStatus ⟨CodeInternal, "ma", "d", "", [], [], [⟨"f", "x.go", 3⟩]⟩).code
      = (ErV.GRPCStatus ⟨CodeInternal, "mb", "d", "", [⟨"c"⟩], [], []⟩).code
    ∧ (ErV.GRPCStatus ⟨CodeInternal, "ma", "d", "", [], [], [⟨"f", "x.go", 3⟩]⟩).message
      = (ErV.GRPCStatus ⟨CodeInternal, "mb", "d", "", [⟨"c"⟩], [], []⟩).message := by
  have h := c3_amended_default_concealment
    ⟨CodeInternal, "ma", "d", "", [], [], [⟨"f", "x.go", 3⟩]⟩
    ⟨CodeInternal, "mb", "d", "", [⟨"c"⟩], [], []⟩ rfl rfl rfl rfl
  exact ⟨h.1 5, h.2.1, h.2.2⟩

/-- Decoding one detail block appends exactly its field violations to
the validation failures (value payload absent) and changes nothing
else about them. -/
theorem decodeDetail_VE (err : ErV) (d : GRPCDetail) :
    (decodeDetail err d).ValidationErrors = err.ValidationErrors ++ veOf d := by
  cases d with
  | badRequest fvs => simp [decodeDetail, veOf]
  | errorInfo r dom md =>
    simp only [decodeDetail, veOf, List.append_nil]
    rcases md.lookup "detail" with _ | dd <;> rcases md.lookup "message" with _ | mm <;>
      first
      | rfl
      | (dsimp only; split <;> rfl)
  | debugInfo entries dd => simp [decodeDetail, veOf]
  | help links => simp [decodeDetail, veOf]

/-- The decoding loop's effect on the validation failures. -/
theorem foldl_decodeDetail_VE (ds : List GRPCDetail) (err : ErV) :
    (ds.foldl decodeDetail err).ValidationErrors
      = err.ValidationErrors ++ ds.flatMap veOf := by
  induction ds generalizing err with
  | nil => simp
  | cons d ds ih => simp [ih, decodeDetail_VE, List.append_assoc]

/-- C5: reconstructing from the RPC projection of a value holding
exactly the validation failure (email, required) yields exactly that
failure back, with the value payload absent. -/
theorem c5_rpc_validation_roundtrip (e : ErV) (a : GoAny)
    (h : e.ValidationErrors = [⟨"email", "required", a⟩]) :
    (FromGRPCStatusWithDetails e.GRPCStatus).ValidationErrors
      = [⟨"email", "required", GoAny.nil⟩] := by
  simp only [FromGRPCStatusWithDetails, foldl_decodeDetail_VE, List.nil_append]
  simp only [ErV.GRPCStatus, h]
  simp [veOf, List.flatMap_append]

/-- Witness for C5 at a concrete value. -/
theorem c5_witness :
    ErV.ValidationErrors
        ⟨CodeValidation, "m", "d", "", [], [⟨"email", "required", GoAny.val "x"⟩], []⟩
      = [⟨"email", "required", GoAny.val "x"⟩]
    ∧ ErV.ValidationErrors
        (FromGRPCStatusWithDetails
          (ErV.GRPCStatus
            ⟨CodeValidation, "m", "d", "", [], [⟨"email", "required", GoAny.val "x"⟩], []⟩))
      = [⟨"email", "required", GoAny.nil⟩] :=
  ⟨rfl,
   c5_rpc_validation_roundtrip
     ⟨CodeValidation, "m", "d", "", [], [⟨"email", "required", GoAny.val "x"⟩], []⟩
     (GoAny.val "x") rfl⟩

/-- Splitting a separator-free list yields that list alone. -/
theorem splitChar_of_not_mem (sep : Char) (l : List Char) (h : sep ∉ l) :
    splitChar sep l = [l] := by
  induction l with
  | nil => rfl
  | cons c cs ih =>
    have hc : ¬ c = sep := fun hc => h (by rw [← hc]; exact List.mem_cons_self c cs)
    have h' : sep ∉ cs := fun hm => h (List.mem_cons_of_mem c hm)
    rw [splitChar, if_neg hc, ih h']

/-- Splitting at the first separator occurrence. -/
theorem splitChar_append_sep (sep : Char) (xs ys : List Char) (h : sep ∉ xs) :
    splitChar sep (xs ++ sep :: ys) = xs :: splitChar sep ys := by
  induction xs with
  | nil =>
    simp only [List.nil_append]
    rw [splitChar, if_pos rfl]
  | cons c cs ih =>
    have hc : ¬ c = sep := fun hc => h (by rw [← hc]; exact List.mem_cons_self c cs)
    have h' : sep ∉ cs := fun hm => h (List.mem_cons_of_mem c hm)
    simp only [List.cons_append]
    rw [splitChar, if_neg hc, ih h']

/-- `splitChar` never returns an empty list of groups. -/
theorem splitChar_ne_nil (sep : Char) (l : List Char) : splitChar sep l ≠ [] := by
  cases l with
  | nil => simp [splitChar]
  | cons c cs =>
    rw [splitChar]
    split
    · simp
    · cases hsc : splitChar sep cs with
      | nil => simp
      | cons g gs => simp

/-- The digit scan of `parseInt` reads the same value from a list as
from the text before that list's first colon: the scan stops at any
non-digit, and a colon is not a digit. -/
theorem parseIntAux_head_splitChar (l : List Char) (acc : Nat) :
    parseIntAux ((splitChar ':' l).headD []) acc = parseIntAux l acc := by
  induction l generalizing acc with
  | nil => rfl
  | cons c cs ih =>
    by_cases hc : c = ':'
    · subst hc
      rw [splitChar, if_pos rfl]
      simp only [List.headD_cons]
      rw [parseIntAux, parseIntAux, if_neg (by decide)]
    · rw [splitChar, if_neg hc]
      cases hsc : splitChar ':' cs with
      | nil => exact absurd hsc (splitChar_ne_nil ':' cs)
      | cons g gs =>
        simp only [List.headD_cons]
        rw [parseIntAux, parseIntAux]
        by_cases hd : '0' ≤ c ∧ c ≤ '9'
        · rw [if_pos hd, if_pos hd]
          have h := ih ((acc * 10 + (c.toNat - '0'.toNat)) % 2 ^ 64)
          rw [hsc] at h
          simpa using h
        · rw [if_neg hd, if_neg hd]

/-- C9 counterexample: the debug entry `"foo:abc bar"` does not match
the shape `file:line function` with a numeric line, yet reconstruction
does not drop it — it produces the frame (bar, foo, 0); and the
exact-shape entry `"x.go:7 a b"` (whose function, everything after the
first space, is `"a b"`) is parsed into a frame whose function is only
the second space-separated token `"a"`. -/
theorem c9_counterexample :
    (FromGRPCStatusWithDetails
      ⟨GRPCCode.Internal, "m",
        [GRPCDetail.debugInfo ["foo:abc bar"] "Go stack trace"]⟩).StackTrace
      = [⟨"bar", "foo", 0⟩]
    ∧ (FromGRPCStatusWithDetails
      ⟨GRPCCode.Internal, "m",
        [GRPCDetail.debugInfo ["foo:abc bar"] "Go stack trace"]⟩).StackTrace ≠ []
    ∧ (FromGRPCStatusWithDetails
      ⟨GRPCCode.Internal, "m",
        [GRPCDetail.debugInfo ["x.go:7 a b"] "Go stack trace"]⟩).StackTrace
      = [⟨"a", "x.go", 7⟩]
    ∧ (FromGRPCStatusWithDetails
      ⟨GRPCCode.Internal, "m",
        [GRPCDetail.debugInfo ["x.go:7 a b"] "Go stack trace"]⟩).StackTrace
      ≠ [⟨"a b", "x.go", 7⟩] :=
  ⟨by decide, by decide, by decide, by decide⟩

/-- C9 as amended: a debug entry produces a frame exactly when it has a
second space-separated part and its first space-separated part contains
a colon.  The frame's file is the first part's text before its first
colon, its function is the second space-separated part alone (any
further space-separated text is discarded), and its line is the
Go-style parse — the leading decimal digits, 0 when there are none — of
the first part's text after its first colon; so a non-numeric line
still yields a frame (with line 0) instead of being dropped.  An entry
with no second space-separated part, or with no colon in its first
part, is silently dropped, and reconstruction never fails.  Here
`file` is the (space- and colon-free) text before the first colon of
the first space-separated part, `after` the rest of that part (it may
contain further colons), `fnTok` the second space-separated part, and
`ws` whatever follows it (empty, or a space and anything at all). -/
theorem c9_amended_debug_entry_parsing :
    (∀ (code : GRPCCode) (msg dd : String) (file after fnTok ws : List Char),
      ' ' ∉ file → ':' ∉ file → ' ' ∉ after → ' ' ∉ fnTok →
      (ws = [] ∨ ∃ tail, ws = ' ' :: tail) →
      (FromGRPCStatusWithDetails
        ⟨code, msg,
          [GRPCDetail.debugInfo
            [String.mk ((file ++ ':' :: after) ++ ' ' :: (fnTok ++ ws))] dd]⟩).StackTrace
        = [⟨String.mk fnTok, String.mk file, parseInt (String.mk after)⟩])
    ∧ (∀ (code : GRPCCode) (msg dd entry : String),
        (splitChar ' ' entry.data).length < 2 ∨
          (splitChar ':' ((splitChar ' ' entry.data).headD [])).length < 2 →
        (FromGRPCStatusWithDetails
          ⟨code, msg, [GRPCDetail.debugInfo [entry] dd]⟩).StackTrace = []) := by
  constructor
  · intro code msg dd file after fnTok ws h1 h2 h3 h4 hws
    have hsp : ' ' ∉ file ++ ':' :: after := by
      simp only [List.mem_append, List.mem_cons]
      push_neg
      exact ⟨h1, by decide, h3⟩
    have hdata : (String.mk ((file ++ ':' :: after) ++ ' ' :: (fnTok ++ ws))).data
        = (file ++ ':' :: after) ++ ' ' :: (fnTok ++ ws) := rfl
    have hsecond : ∃ l, splitChar ' ' (fnTok ++ ws) = fnTok :: l := by
      rcases hws with rfl | ⟨tail, rfl⟩
      · rw [List.append_nil, splitChar_of_not_mem ' ' fnTok h4]
        exact ⟨[], rfl⟩
      · rw [splitChar_append_sep ' ' fnTok tail h4]
        exact ⟨_, rfl⟩
    rcases hsecond with ⟨l, hl⟩
    simp only [FromGRPCStatusWithDetails, List.foldl, decodeDetail, List.nil_append]
    simp only [List.flatMap_cons, List.flatMap_nil, List.append_nil]
    simp only [parseStackEntry, hdata]
    rw [splitChar_append_sep ' ' (file ++ ':' :: after) (fnTok ++ ws) hsp, hl]
    rw [if_pos (by simp only [List.length_cons]; omega)]
    simp only [List.headD_cons]
    rw [splitChar_append_sep ':' file after h2]
    cases hsc : splitChar ':' after with
    | nil => exact absurd hsc (splitChar_ne_nil ':' after)
    | cons g gs =>
      rw [if_pos (by simp only [List.length_cons]; omega)]
      have hline : parseInt (String.mk g) = parseInt (String.mk after) := by
        have h := parseIntAux_head_splitChar after 0
        rw [hsc] at h
        simp only [List.headD_cons] at h
        unfold parseInt
        rw [show (String.mk g).data = g from rfl,
          show (String.mk after).data = after from rfl, h]
      simp [List.getD, hline]
  · intro code msg dd entry h
    simp only [FromGRPCStatusWithDetails, List.foldl, decodeDetail, List.nil_append]
    simp only [List.flatMap_cons, List.flatMap_nil, List.append_nil]
    simp only [parseStackEntry]
    rcases h with h | h
    · rw [if_neg (by omega)]
    · by_cases ho : (splitChar ' ' entry.data).length ≥ 2
      · rw [if_pos ho, if_neg (by omega)]
      · rw [if_neg ho]

/-- Witness for the amended C9: a concrete entry whose line part has a
second colon and whose function token is followed by further text, and
a concrete dropped entry. -/
theorem c9_witness :
    (FromGRPCStatusWithDetails
      ⟨GRPCCode.Internal, "m",
        [GRPCDetail.debugInfo
          [String.mk ((['x', '.', 'g', 'o'] ++ ':' :: ['4', '2', ':', '9'])
            ++ ' ' :: (['m', 'a', 'i', 'n'] ++ [' ', 'e', 'x', 't', 'r', 'a']))]
          "Go stack trace"]⟩).StackTrace
      = [⟨String.mk ['m', 'a', 'i', 'n'], String.mk ['x', '.', 'g', 'o'],
          parseInt (String.mk ['4', '2', ':', '9'])⟩]
    ∧ (FromGRPCStatusWithDetails
      ⟨GRPCCode.Internal, "m",
        [GRPCDetail.debugInfo ["nocolonhere"] "Go stack trace"]⟩).StackTrace = [] :=
  ⟨c9_amended_debug_entry_parsing.1 GRPCCode.Internal "m" "Go stack trace"
     ['x', '.', 'g', 'o'] ['4', '2', ':', '9'] ['m', 'a', 'i', 'n'] [' ', 'e', 'x', 't', 'r', 'a']
     (by decide) (by decide) (by decide) (by decide)
     (Or.inr ⟨['e', 'x', 't', 'r', 'a'], rfl⟩),
   c9_amended_debug_entry_parsing.2 GRPCCode.Internal "m" "Go stack trace" "nocolonhere"
     (by decide)⟩

end Erz
